import Mathlib

/-!
Verification of the WebSocket protocol layer: frame codec, masking
transform, role-based connection rules, closing handshake, and the
handshake accept-value computation.  All definitions are shallow
embeddings of the corresponding Rust functions: machine integers are
`Nat` with explicit `% 2 ^ w` at the points where the source casts,
fallible operations return `Except`, the byte stream is an explicit
`List Nat`, and panics are modelled with `Option`.
-/

namespace RustySocket

/-- Big-endian bytes of a 16-bit value, as produced by `u16::to_be_bytes`. -/
def u16_be (n : Nat) : List Nat := [n / 256 % 256, n % 256]

/-- Big-endian bytes of a 64-bit value, as produced by `u64::to_be_bytes`. -/
def u64_be (n : Nat) : List Nat :=
  [n / 2 ^ 56 % 256, n / 2 ^ 48 % 256, n / 2 ^ 40 % 256, n / 2 ^ 32 % 256,
   n / 2 ^ 24 % 256, n / 2 ^ 16 % 256, n / 2 ^ 8 % 256, n % 256]

/-- Value of big-endian bytes, as computed by `u16::from_be_bytes` and
`u64::from_be_bytes` (most significant byte first). -/
def be_val (bs : List Nat) : Nat := bs.foldl (fun acc b => acc * 256 + b) 0

/-- The error type of the library (`Error` in `lib.rs`): an I/O error,
a protocol error with a message, or `ConnectionClosed`. -/
inductive RError where
  | io : RError
  | protocol : String → RError
  | connectionClosed : RError
deriving DecidableEq, Repr

/-- The opcode of a WebSocket frame (`OpCode` in `frame.rs`).  The Rust
enum declares no explicit discriminants. -/
inductive OpCode where
  | Continuation : OpCode
  | Text : OpCode
  | Binary : OpCode
  | Close : OpCode
  | Ping : OpCode
  | Pong : OpCode
deriving DecidableEq, Repr

/-- The value of `self.opcode as u8` in Rust: the declaration-order
discriminant (0,1,2,3,4,5), since the enum declares no explicit values. -/
def OpCode.discriminant : OpCode → Nat
  | .Continuation => 0
  | .Text => 1
  | .Binary => 2
  | .Close => 3
  | .Ping => 4
  | .Pong => 5

/-- `OpCode::try_from` in `frame.rs`: accepts 0,1,2,8,9,10 and rejects
every other value with a protocol error. -/
def OpCode.tryFrom (value : Nat) : Except RError OpCode :=
  match value with
  | 0 => .ok .Continuation
  | 1 => .ok .Text
  | 2 => .ok .Binary
  | 8 => .ok .Close
  | 9 => .ok .Ping
  | 10 => .ok .Pong
  | v => .error (.protocol ("Invalid OpCode: " ++ toString v))

/-- A WebSocket frame (`Frame` in `frame.rs`).  The mask is an optional
list of four bytes; the payload is a byte list. -/
structure Frame where
  fin : Bool
  rsv1 : Bool
  rsv2 : Bool
  rsv3 : Bool
  opcode : OpCode
  mask : Option (List Nat)
  payload : List Nat
deriving DecidableEq, Repr

/-- Equality of `Except` results is decidable componentwise. -/
instance exceptDecEq {e a : Type} [DecidableEq e] [DecidableEq a] :
    DecidableEq (Except e a)
  | .ok x, .ok y =>
    if h : x = y then .isTrue (by rw [h])
    else .isFalse (by intro hc; cases hc; exact h rfl)
  | .error x, .error y =>
    if h : x = y then .isTrue (by rw [h])
    else .isFalse (by intro hc; cases hc; exact h rfl)
  | .ok _, .error _ => .isFalse (by intro hc; cases hc)
  | .error _, .ok _ => .isFalse (by intro hc; cases hc)

/-- `Frame::new`: fin set, reserved bits clear, no mask. -/
def Frame.new (opcode : OpCode) (payload : List Nat) : Frame :=
  ⟨true, false, false, false, opcode, none, payload⟩

/-- `Frame::close`: a Close frame whose payload is the 2-byte big-endian
status code when one is given, empty otherwise.  The status code is a
`u16`, modelled by reducing the argument modulo `2 ^ 16`. -/
def Frame.close (status_code : Option Nat) : Frame :=
  Frame.new OpCode.Close
    (match status_code with
     | some code => u16_be (code % 2 ^ 16)
     | none => [])

/-- `Frame::is_close`. -/
def Frame.is_close (f : Frame) : Bool := f.opcode = OpCode.Close

/-- `Frame::is_masked`. -/
def Frame.is_masked (f : Frame) : Bool := f.mask.isSome

/-- The first header byte written by `Frame::to_bytes`: FIN, RSV1-3 as
the top four bits, or-ed (`|=`) with `self.opcode as u8`. -/
def firstByteOf (fin rsv1 rsv2 rsv3 : Bool) (op : OpCode) : Nat :=
  ((((if fin then 0x80 else 0) ||| (if rsv1 then 0x40 else 0)) |||
    (if rsv2 then 0x20 else 0)) ||| (if rsv3 then 0x10 else 0)) ||| op.discriminant

/-- `Frame::to_bytes`: header byte, mask bit plus three-tier length
encoding, optional mask bytes, then the payload verbatim.  The `as u16`
and `as u64` casts of the Rust source are the `% 2 ^ 16` and `% 2 ^ 64`
reductions; `payload_len as u8` in the first tier is `% 2 ^ 8`. -/
def Frame.to_bytes (f : Frame) : List Nat :=
  let first_byte := firstByteOf f.fin f.rsv1 f.rsv2 f.rsv3 f.opcode
  let mask_bit : Nat := if f.mask.isSome then 0x80 else 0
  let payload_len := f.payload.length
  let len_bytes :=
    if payload_len < 126 then
      [mask_bit ||| payload_len % 2 ^ 8]
    else if payload_len < 65536 then
      (mask_bit ||| 126) :: u16_be (payload_len % 2 ^ 16)
    else
      (mask_bit ||| 127) :: u64_be (payload_len % 2 ^ 64)
  let mask_bytes := match f.mask with | some m => m | none => []
  first_byte :: len_bytes ++ mask_bytes ++ f.payload

/-- `read_exact` on a byte-list stream: take `n` bytes and return them
with the rest of the stream, or fail with an I/O error when the stream
is shorter than `n` (Rust's `UnexpectedEof`). -/
def readExact (n : Nat) (s : List Nat) : Except RError (List Nat × List Nat) :=
  if n ≤ s.length then .ok (s.take n, s.drop n) else .error .io

/-- The unmasking loop of `Frame::read_from` and the masking loop of
`mask_frame`: XOR byte `i` with `mask[i % 4]`. -/
def applyMask (mask : List Nat) (payload : List Nat) : List Nat :=
  payload.enum.map (fun p => p.2 ^^^ mask.getD (p.1 % 4) 0)

/-- The extended-length step of `Frame::read_from`: a 7-bit code of 126
reads a 2-byte big-endian length, 127 reads an 8-byte one, and any other
code is itself the length. -/
def readLen (len0 : Nat) (s1 : List Nat) : Except RError (Nat × List Nat) :=
  if len0 = 126 then
    match readExact 2 s1 with
    | .error e => .error e
    | .ok (b, s2) => .ok (be_val b, s2)
  else if len0 = 127 then
    match readExact 8 s1 with
    | .error e => .error e
    | .ok (b, s2) => .ok (be_val b, s2)
  else
    .ok (len0, s1)

/-- The mask step of `Frame::read_from`: read four mask bytes when the
mask flag is set. -/
def readMask (masked : Bool) (s2 : List Nat) :
    Except RError (Option (List Nat) × List Nat) :=
  if masked then
    match readExact 4 s2 with
    | .error e => .error e
    | .ok (mb, s3) => .ok (some mb, s3)
  else
    .ok (none, s2)

/-- `Frame::read_from`: parse one frame from the head of the stream,
returning the frame and the unconsumed rest of the stream. -/
def Frame.read_from (s : List Nat) : Except RError (Frame × List Nat) :=
  match readExact 2 s with
  | .error e => .error e
  | .ok (hdr, s1) =>
    let first_byte := hdr.getD 0 0
    let second_byte := hdr.getD 1 0
    let fin := (first_byte &&& 0x80) != 0
    let rsv1 := (first_byte &&& 0x40) != 0
    let rsv2 := (first_byte &&& 0x20) != 0
    let rsv3 := (first_byte &&& 0x10) != 0
    match OpCode.tryFrom (first_byte &&& 0x0F) with
    | .error e => .error e
    | .ok opcode =>
      let masked := (second_byte &&& 0x80) != 0
      let len0 := second_byte &&& 0x7F
      match readLen len0 s1 with
      | .error e => .error e
      | .ok (payload_len, s2) =>
        match readMask masked s2 with
        | .error e => .error e
        | .ok (mask, s3) =>
          match readExact payload_len s3 with
          | .error e => .error e
          | .ok (payload0, s4) =>
            let payload := match mask with
              | some m => applyMask m payload0
              | none => payload0
            .ok (⟨fin, rsv1, rsv2, rsv3, opcode, mask, payload⟩, s4)

/-- `rotate_right(4)` on a slice of length at least 4: the last four
elements wrap around to the front. -/
def rotateRight4 (l : List Nat) : List Nat :=
  l.drop (l.length - 4) ++ l.take (l.length - 4)

/-- `mask_frame` in `mask.rs`.  The random 4-byte mask is a parameter
(the source draws it from a non-deterministic source).  The buffer is a
fixed-length slice: the bytes are XORed with the cyclic mask, rotated
right by four positions, and the first four bytes are overwritten with
the mask.  `rotate_right(4)` and `data[..4]` both panic when the buffer
holds fewer than four bytes, modelled by `none`. -/
def mask_frame (mask : List Nat) (data : List Nat) : Option (List Nat) :=
  if 4 ≤ data.length then
    let xored := applyMask mask data
    let rotated := rotateRight4 xored
    some (mask ++ rotated.drop 4)
  else
    none

/-- `WebSocket::send`: serialize the frame; a Client-role connection
additionally runs `mask_frame` over the serialized bytes (with a mask
supplied here as a parameter).  The result is the byte sequence written
to the transport, or `none` when `mask_frame` panics. -/
def WebSocket.send (is_client : Bool) (mask : List Nat) (frame : Frame) :
    Option (List Nat) :=
  let data := frame.to_bytes
  if is_client then mask_frame mask data else some data

/-- `WebSocket::receive`: decode one frame, then enforce the role check
exactly as written in `lib.rs`: a Server-role connection (`is_client =
false`) errors when the frame is masked, a Client-role connection errors
when it is not. -/
def WebSocket.receive (is_client : Bool) (s : List Nat) :
    Except RError (Frame × List Nat) :=
  match Frame.read_from s with
  | .error e => .error e
  | .ok (frame, rest) =>
    if !is_client && frame.is_masked then
      .error (.protocol "Client frames must be masked")
    else if is_client && !frame.is_masked then
      .error (.protocol "Server frames must not be masked")
    else
      .ok (frame, rest)

/-- The receive loop of `WebSocket::close`, over an explicit list of
inbound receive results.  `none` means the list was exhausted with the
loop still running (the code would keep waiting on the transport). -/
def WebSocket.closeLoop : List (Except RError Frame) → Option (Except RError Unit)
  | [] => none
  | r :: rs =>
    match r with
    | .ok frame => if frame.is_close then some (.ok ()) else WebSocket.closeLoop rs
    | .error .connectionClosed => some (.ok ())
    | .error e => some (.error e)

/-- `WebSocket::close`: send `Frame::close(None)` (whose outcome is the
`sendResult` parameter, since sending touches the transport), then run
the receive loop. -/
def WebSocket.close (sendResult : Except RError Unit)
    (inbound : List (Except RError Frame)) : Option (Except RError Unit) :=
  match sendResult with
  | .error e => some (.error e)
  | .ok _ => WebSocket.closeLoop inbound

/-- Whether a result is the `ConnectionClosed` error. -/
def errIsConnClosed {α : Type} : Except RError α → Bool
  | .error .connectionClosed => true
  | _ => false

/-- UTF-8 bytes of an ASCII string (every string this development feeds
here is ASCII, where the code unit equals the code point). -/
def strBytes (s : String) : List Nat := s.data.map Char.toNat

/-- The fixed WebSocket GUID constant of `handshake.rs`, as bytes. -/
def WEBSOCKET_GUID : List Nat := strBytes "258EAFA5-E914-47DA-95CA-C5AB0DC85B11"

/-- 32-bit left rotation (values kept below `2 ^ 32`). -/
def rotl32 (n x : Nat) : Nat := ((x <<< n) ||| (x >>> (32 - n))) % 2 ^ 32

/-- SHA-1 round function: choose, parity, majority, parity. -/
def sha1F (t b c d : Nat) : Nat :=
  if t < 20 then (b &&& c) ||| ((b ^^^ (2 ^ 32 - 1)) &&& d)
  else if t < 40 then b ^^^ c ^^^ d
  else if t < 60 then (b &&& c) ||| (b &&& d) ||| (c &&& d)
  else b ^^^ c ^^^ d

/-- SHA-1 round constants. -/
def sha1K (t : Nat) : Nat :=
  if t < 20 then 0x5A827999
  else if t < 40 then 0x6ED9EBA1
  else if t < 60 then 0x8F1BBCDC
  else 0xCA62C1D6

/-- Split a byte list into big-endian 32-bit words. -/
def beWords : List Nat → List Nat
  | b0 :: b1 :: b2 :: b3 :: rest =>
    (((b0 * 256 + b1) * 256 + b2) * 256 + b3) :: beWords rest
  | _ => []

/-- Extend the 16 words of a block to the 80-word SHA-1 schedule. -/
def sha1Schedule (w16 : Array Nat) : Array Nat :=
  (List.range 64).foldl
    (fun a i =>
      a.push (rotl32 1
        ((a.getD (i + 13) 0) ^^^ (a.getD (i + 8) 0) ^^^
         (a.getD (i + 2) 0) ^^^ (a.getD i 0))))
    w16

/-- One SHA-1 compression step over a 64-byte block. -/
def sha1Block (h : List Nat) (block : List Nat) : List Nat :=
  let w := sha1Schedule (beWords block).toArray
  let init := (h.getD 0 0, h.getD 1 0, h.getD 2 0, h.getD 3 0, h.getD 4 0)
  let final := (List.range 80).foldl
    (fun (s : Nat × Nat × Nat × Nat × Nat) t =>
      let (a, b, c, d, e) := s
      let temp := (rotl32 5 a + sha1F t b c d + e + w.getD t 0 + sha1K t) % 2 ^ 32
      (temp, a, rotl32 30 b, c, d))
    init
  [(h.getD 0 0 + final.1) % 2 ^ 32,
   (h.getD 1 0 + final.2.1) % 2 ^ 32,
   (h.getD 2 0 + final.2.2.1) % 2 ^ 32,
   (h.getD 3 0 + final.2.2.2.1) % 2 ^ 32,
   (h.getD 4 0 + final.2.2.2.2) % 2 ^ 32]

/-- SHA-1 padding: a `0x80` byte, zeros to 56 mod 64, then the 64-bit
big-endian bit length of the message. -/
def sha1Pad (msg : List Nat) : List Nat :=
  msg ++ [0x80] ++ List.replicate ((119 - msg.length % 64) % 64) 0 ++
    u64_be (8 * msg.length)

/-- Split a byte list into successive 64-byte chunks (structural
recursion on a fuel bound, so that the definition reduces inside the
kernel; the fuel `l.length` always suffices since every step consumes at
least one byte of a non-empty list). -/
def chunks64Fuel : Nat → List Nat → List (List Nat)
  | 0, _ => []
  | _, [] => []
  | fuel + 1, l => l.take 64 :: chunks64Fuel fuel (l.drop 64)

/-- Split a byte list into successive 64-byte chunks. -/
def chunks64 (l : List Nat) : List (List Nat) := chunks64Fuel l.length l

/-- Big-endian bytes of a 32-bit word. -/
def u32_be (n : Nat) : List Nat :=
  [n / 2 ^ 24 % 256, n / 2 ^ 16 % 256, n / 2 ^ 8 % 256, n % 256]

/-- SHA-1 of a byte sequence: the 20-byte digest. -/
def sha1 (msg : List Nat) : List Nat :=
  let hFinal := (chunks64 (sha1Pad msg)).foldl sha1Block
    [0x67452301, 0xEFCDAB89, 0x98BADCFE, 0x10325476, 0xC3D2E1F0]
  hFinal.foldr (fun x acc => u32_be x ++ acc) []

/-- The character (ASCII code) of a 6-bit group in the standard Base64
alphabet. -/
def b64Char (n : Nat) : Nat :=
  if n < 26 then 65 + n
  else if n < 52 then 97 + (n - 26)
  else if n < 62 then 48 + (n - 52)
  else if n = 62 then 43
  else 47

/-- Standard Base64 encoding with `=` padding, over byte lists. -/
def base64Encode : List Nat → List Nat
  | [] => []
  | [a] => [b64Char (a / 4), b64Char (a % 4 * 16), 61, 61]
  | [a, b] => [b64Char (a / 4), b64Char (a % 4 * 16 + b / 16), b64Char (b % 16 * 4), 61]
  | a :: b :: c :: rest =>
    b64Char (a / 4) :: b64Char (a % 4 * 16 + b / 16) ::
    b64Char (b % 16 * 4 + c / 64) :: b64Char (c % 64) :: base64Encode rest

/-- The `Sha1::new` / `update` / `finalize` interface used by
`generate_accept_value`: the hasher state is the byte sequence absorbed
so far, `update` appends, `finalize` digests. -/
def hasherUpdate (st : List Nat) (data : List Nat) : List Nat := st ++ data

/-- `generate_accept_value` in `handshake.rs`: absorb the key bytes and
then the GUID bytes into a fresh SHA-1 hasher, finalize, and
Base64-encode the digest. -/
def generate_accept_value (key : List Nat) : List Nat :=
  base64Encode (sha1 (hasherUpdate (hasherUpdate [] key) WEBSOCKET_GUID))

/-- `str::split_once(':')`: the parts before and after the first colon,
or `none` when the string has no colon. -/
def splitOnceColon (s : String) : Option (String × String) :=
  match s.splitOn ":" with
  | [] => none
  | [_] => none
  | k :: rest => some (k, String.intercalate ":" rest)

/-- `HashMap::insert` on an association list: overwrite the existing
binding of the key or append a new one. -/
def insertKV : List (String × String) → String → String → List (String × String)
  | [], k, v => [(k, v)]
  | (k0, v0) :: rest, k, v =>
    if k0 = k then (k, v) :: rest else (k0, v0) :: insertKV rest k v

/-- One header line of the handshake loops: split on the first colon,
trim, lower-case the key, insert; a line without a colon is ignored. -/
def headerInsert (hs : List (String × String)) (line : String) :
    List (String × String) :=
  match splitOnceColon line with
  | none => hs
  | some (k, v) => insertKV hs k.trim.toLower v.trim

/-- `read_line` on a stream of lines: pop the next line, or return the
empty string at end of input (`read_line` reads zero bytes at EOF and
reports no error, leaving the fresh `line` buffer empty). -/
def readLine : List String → String × List String
  | [] => ("", [])
  | l :: ls => (l, ls)

/-- The header-reading loop shared verbatim by `server_handshake` and
`client_handshake`, with an explicit fuel bound on the number of
iterations: read a line, stop on a bare CRLF, otherwise record the
header and continue.  `none` means the fuel ran out with the loop still
running. -/
def readHeaders : Nat → List String → List (String × String) →
    Option (List (String × String))
  | 0, _, _ => none
  | fuel + 1, stream, hs =>
    let step := readLine stream
    if step.1 = "\r\n" then some hs
    else readHeaders fuel step.2 (headerInsert hs step.1)

/-! ### Helper lemmas -/

theorem readExact_append (p rest : List Nat) :
    readExact p.length (p ++ rest) = .ok (p, rest) := by
  simp [readExact]

theorem readExact_all (p : List Nat) : readExact p.length p = .ok (p, []) := by
  simpa using readExact_append p []

theorem readExact_cons2 (a b : Nat) (r : List Nat) :
    readExact 2 (a :: b :: r) = .ok ([a, b], r) := by
  simp [readExact, List.take_succ_cons, List.drop_succ_cons]

theorem readExact_error {n : Nat} {s : List Nat} {e : RError}
    (h : readExact n s = .error e) : e = .io := by
  unfold readExact at h
  split at h
  · exact absurd h (by simp)
  · exact (Except.error.injEq _ _).mp h.symm

theorem tryFrom_error {v : Nat} {e : RError}
    (h : OpCode.tryFrom v = .error e) : ∃ m, e = .protocol m := by
  unfold OpCode.tryFrom at h
  split at h <;> first
    | exact ⟨_, ((Except.error.injEq _ _).mp h).symm⟩
    | exact absurd h (by simp)

theorem readLen_error {l : Nat} {s : List Nat} {e : RError}
    (h : readLen l s = .error e) : e = .io := by
  unfold readLen at h
  split at h
  · split at h
    · rename_i heq
      exact ((Except.error.injEq _ _).mp h) ▸ readExact_error heq
    · exact absurd h (by simp)
  · split at h
    · split at h
      · rename_i heq
        exact ((Except.error.injEq _ _).mp h) ▸ readExact_error heq
      · exact absurd h (by simp)
    · exact absurd h (by simp)

theorem readMask_error {m : Bool} {s : List Nat} {e : RError}
    (h : readMask m s = .error e) : e = .io := by
  unfold readMask at h
  split at h
  · split at h
    · rename_i heq
      exact ((Except.error.injEq _ _).mp h) ▸ readExact_error heq
    · exact absurd h (by simp)
  · exact absurd h (by simp)

theorem readLen_small {l : Nat} (h126 : l ≠ 126) (h127 : l ≠ 127)
    (s : List Nat) : readLen l s = .ok (l, s) := by
  simp [readLen, h126, h127]

theorem readLen_ext2 (c0 c1 : Nat) (rest : List Nat) :
    readLen 126 (c0 :: c1 :: rest) = .ok (be_val [c0, c1], rest) := by
  simp [readLen, readExact_cons2]

theorem readLen_ext8 (c : List Nat) (h : c.length = 8) (rest : List Nat) :
    readLen 127 (c ++ rest) = .ok (be_val c, rest) := by
  unfold readLen
  rw [if_neg (by decide), if_pos rfl, show (8 : Nat) = c.length from h.symm,
    readExact_append]

theorem readMask_none (s : List Nat) : readMask false s = .ok (none, s) := rfl

theorem readMask_some (m : List Nat) (h : m.length = 4) (rest : List Nat) :
    readMask true (m ++ rest) = .ok (some m, rest) := by
  simp only [readMask, if_pos]
  rw [show (4 : Nat) = m.length from h.symm, readExact_append]

theorem be_val_u16 (n : Nat) (h : n < 2 ^ 16) : be_val (u16_be n) = n := by
  simp [be_val, u16_be]
  omega

theorem be_val_u64 (n : Nat) (h : n < 2 ^ 64) : be_val (u64_be n) = n := by
  simp [be_val, u64_be]
  omega

theorem u64_be_length (n : Nat) : (u64_be n).length = 8 := rfl

theorem firstByteOf_spec (fin rsv1 rsv2 rsv3 : Bool) (op : OpCode) :
    ((firstByteOf fin rsv1 rsv2 rsv3 op &&& 0x80) != 0) = fin ∧
    ((firstByteOf fin rsv1 rsv2 rsv3 op &&& 0x40) != 0) = rsv1 ∧
    ((firstByteOf fin rsv1 rsv2 rsv3 op &&& 0x20) != 0) = rsv2 ∧
    ((firstByteOf fin rsv1 rsv2 rsv3 op &&& 0x10) != 0) = rsv3 ∧
    (firstByteOf fin rsv1 rsv2 rsv3 op &&& 0x0F) = op.discriminant := by
  cases fin <;> cases rsv1 <;> cases rsv2 <;> cases rsv3 <;> cases op <;> decide

theorem maskBit_spec : ∀ x < 128,
    (((128 ||| x) &&& 0x80) != 0) = true ∧ ((128 ||| x) &&& 0x7F) = x ∧
    (((0 ||| x) &&& 0x80) != 0) = false ∧ ((0 ||| x) &&& 0x7F) = x := by
  decide

theorem andBits_spec : ∀ x < 128,
    ((x &&& 0x80) != 0) = false ∧ (x &&& 0x7F) = x := by
  decide

theorem readLen_u16 (n : Nat) (rest : List Nat) :
    readLen 126 (u16_be n ++ rest) = .ok (be_val (u16_be n), rest) := by
  simpa [u16_be] using readLen_ext2 (n / 256 % 256) (n % 256) rest

theorem readLen_u64 (n : Nat) (rest : List Nat) :
    readLen 127 (u64_be n ++ rest) = .ok (be_val (u64_be n), rest) :=
  readLen_ext8 (u64_be n) (u64_be_length n) rest

/-- Decoding the encoding of a frame: the header fields and mask survive
unchanged, the payload comes back through the decoder's unmasking XOR,
and the opcode byte carries the enum discriminant, which the decoder's
`OpCode::try_from` accepts only for the first three opcodes. -/
theorem read_from_to_bytes_aux (fin rsv1 rsv2 rsv3 : Bool) (op : OpCode)
    (mask : Option (List Nat)) (p : List Nat)
    (hm : ∀ m, mask = some m → m.length = 4) (hlen : p.length < 2 ^ 64) :
    Frame.read_from (Frame.to_bytes ⟨fin, rsv1, rsv2, rsv3, op, mask, p⟩) =
      match OpCode.tryFrom op.discriminant with
      | .error e => .error e
      | .ok op2 =>
        .ok (⟨fin, rsv1, rsv2, rsv3, op2, mask,
              match mask with
              | some m => applyMask m p
              | none => p⟩, []) := by
  obtain ⟨h80, h40, h20, h10, h0F⟩ := firstByteOf_spec fin rsv1 rsv2 rsv3 op
  by_cases h1 : p.length < 126
  · have hmod : p.length % 256 = p.length := Nat.mod_eq_of_lt (by omega)
    have hrl : ∀ s, readLen p.length s = .ok (p.length, s) :=
      readLen_small (by omega) (by omega)
    have hrall := readExact_all p
    cases mask with
    | none =>
      obtain ⟨hb1, hb2⟩ := andBits_spec p.length (by omega)
      simp [Frame.to_bytes, if_pos h1, Frame.read_from, readExact_cons2,
        h80, h40, h20, h10, h0F, hb1, hb2, hmod, hrl, readMask_none, hrall]
    | some m =>
      obtain ⟨hb1, hb2, -, -⟩ := maskBit_spec p.length (by omega)
      have hrm : readMask true (m ++ p) = .ok (some m, p) :=
        readMask_some m (hm m rfl) p
      simp [Frame.to_bytes, if_pos h1, Frame.read_from, readExact_cons2,
        h80, h40, h20, h10, h0F, hb1, hb2, hmod, hrl, hrm, hrall]
  · by_cases h2 : p.length < 65536
    · have hbe : be_val (u16_be (p.length % 2 ^ 16)) = p.length := by
        rw [Nat.mod_eq_of_lt (by omega)]; exact be_val_u16 _ (by omega)
      have hrall := readExact_all p
      have e1 : ((126 : Nat) &&& 127) = 126 := rfl
      have e2 : (((126 : Nat) &&& 128) != 0) = false := rfl
      have e3 : (((254 : Nat)) &&& 127) = 126 := rfl
      have e4 : ((((254 : Nat)) &&& 128) != 0) = true := rfl
      cases mask with
      | none =>
        have hrl : readLen 126 (u16_be (p.length % 2 ^ 16) ++ ([] ++ p)) =
            .ok (p.length, [] ++ p) := by rw [readLen_u16, hbe]
        simp [Frame.to_bytes, if_neg h1, if_pos h2, Frame.read_from,
          readExact_cons2, h80, h40, h20, h10, h0F, e1, e2] at hrl ⊢
        simp [hrl, readMask_none, hrall]
      | some m =>
        have hrm : readMask true (m ++ p) = .ok (some m, p) :=
          readMask_some m (hm m rfl) p
        have hrl : readLen 126 (u16_be (p.length % 2 ^ 16) ++ (m ++ p)) =
            .ok (p.length, m ++ p) := by rw [readLen_u16, hbe]
        simp [Frame.to_bytes, if_neg h1, if_pos h2, Frame.read_from,
          readExact_cons2, h80, h40, h20, h10, h0F, e3, e4] at hrl ⊢
        simp [hrl, hrm, hrall]
    · have hbe : be_val (u64_be (p.length % 2 ^ 64)) = p.length := by
        rw [Nat.mod_eq_of_lt (by omega)]; exact be_val_u64 _ (by omega)
      have hrall := readExact_all p
      have e1 : ((127 : Nat) &&& 127) = 127 := rfl
      have e2 : (((127 : Nat) &&& 128) != 0) = false := rfl
      have e3 : (((255 : Nat)) &&& 127) = 127 := rfl
      have e4 : ((((255 : Nat)) &&& 128) != 0) = true := rfl
      cases mask with
      | none =>
        have hrl : readLen 127 (u64_be (p.length % 2 ^ 64) ++ ([] ++ p)) =
            .ok (p.length, [] ++ p) := by rw [readLen_u64, hbe]
        simp [Frame.to_bytes, if_neg h1, if_neg h2, Frame.read_from,
          readExact_cons2, h80, h40, h20, h10, h0F, e1, e2] at hrl ⊢
        simp [hrl, readMask_none, hrall]
      | some m =>
        have hrm : readMask true (m ++ p) = .ok (some m, p) :=
          readMask_some m (hm m rfl) p
        have hrl : readLen 127 (u64_be (p.length % 2 ^ 64) ++ (m ++ p)) =
            .ok (p.length, m ++ p) := by rw [readLen_u64, hbe]
        simp [Frame.to_bytes, if_neg h1, if_neg h2, Frame.read_from,
          readExact_cons2, h80, h40, h20, h10, h0F, e3, e4] at hrl ⊢
        simp [hrl, hrm, hrall]

theorem closeLoop_skip : ∀ pre : List (Except RError Frame),
    (∀ r ∈ pre, ∃ f, r = Except.ok f ∧ f.is_close = false) →
    ∀ tail, WebSocket.closeLoop (pre ++ tail) = WebSocket.closeLoop tail := by
  intro pre
  induction pre with
  | nil => intro _ tail; rfl
  | cons a t ih =>
    intro hpre tail
    obtain ⟨f, rfl, hf⟩ := hpre a (by simp)
    simp only [List.cons_append, WebSocket.closeLoop, hf]
    exact ih (fun r hr => hpre r (by simp [hr])) tail

theorem read_from_no_connClosed (s : List Nat) :
    errIsConnClosed (Frame.read_from s) = false := by
  unfold Frame.read_from
  split
  · rename_i heq
    rw [readExact_error heq]; rfl
  · rename_i heq
    try dsimp only
    split
    · rename_i heq2
      obtain ⟨msg, rfl⟩ := tryFrom_error heq2; rfl
    · rename_i heq2
      try dsimp only
      split
      · rename_i heq3
        rw [readLen_error heq3]; rfl
      · rename_i heq3
        try dsimp only
        split
        · rename_i heq4
          rw [readMask_error heq4]; rfl
        · rename_i heq4
          try dsimp only
          split
          · rename_i heq5
            rw [readExact_error heq5]; rfl
          · rfl

theorem receive_no_connClosed (c : Bool) (s : List Nat) :
    errIsConnClosed (WebSocket.receive c s) = false := by
  unfold WebSocket.receive
  split
  · rename_i e hre
    have hr := read_from_no_connClosed s
    rw [hre] at hr
    exact hr
  · split
    · rfl
    · split
      · rfl
      · rfl

/-! ### Claims -/

/-- C1: the round-trip claim is false as stated: for a masked frame the
decoder unmasks the payload that the encoder emitted verbatim, so a
masked Text frame with payload `[0]` and mask `[1,0,0,0]` (payload
length 1, a length in the claimed set) decodes to payload `[1]`. -/
theorem C1_counterexample :
    Frame.read_from
        (Frame.mk true false false false .Text (some [1, 0, 0, 0]) [0]).to_bytes =
      .ok (Frame.mk true false false false .Text (some [1, 0, 0, 0]) [1], []) ∧
    Frame.mk true false false false OpCode.Text (some [1, 0, 0, 0]) ([1] : List Nat) ≠
      Frame.mk true false false false OpCode.Text (some [1, 0, 0, 0]) [0] :=
  ⟨rfl, by decide⟩

/-- C1 (amended): for frames whose opcode is Continuation, Text or
Binary, decoding the encoding reproduces fin, the three reserved bits,
the opcode and the mask, and reproduces the payload exactly when the
frame is unmasked; when the frame is masked the payload comes back XORed
with `mask[i % 4]`, because the encoder writes the payload verbatim
while the decoder unmasks.  For Close, Ping and Pong frames decoding the
encoding fails with a protocol error, because the encoder writes the
enum discriminant (3, 4, 5) where the decoder expects the wire values
(8, 9, 10). -/
theorem C1_roundtrip_amended (f : Frame)
    (hm : ∀ m, f.mask = some m → m.length = 4)
    (hlen : f.payload.length < 2 ^ 64) :
    (f.opcode = OpCode.Continuation ∨ f.opcode = OpCode.Text ∨
        f.opcode = OpCode.Binary →
      Frame.read_from f.to_bytes =
        .ok ({ f with payload :=
                 match f.mask with
                 | some m => applyMask m f.payload
                 | none => f.payload }, [])) ∧
    (f.opcode = OpCode.Close ∨ f.opcode = OpCode.Ping ∨
        f.opcode = OpCode.Pong →
      Frame.read_from f.to_bytes =
        .error (.protocol ("Invalid OpCode: " ++ toString f.opcode.discriminant))) := by
  obtain ⟨fin, rsv1, rsv2, rsv3, op, mask, p⟩ := f
  have key := read_from_to_bytes_aux fin rsv1 rsv2 rsv3 op mask p hm hlen
  cases op <;> simp_all [OpCode.tryFrom, OpCode.discriminant]

/-- Witness for C1 (amended) at a concrete masked Text frame. -/
theorem C1_roundtrip_amended_witness :
    Frame.read_from
        (Frame.mk true false false false .Text (some [1, 2, 3, 4]) [5]).to_bytes =
      .ok (Frame.mk true false false false .Text (some [1, 2, 3, 4]) [4], []) := by
  have h := (C1_roundtrip_amended
    (Frame.mk true false false false .Text (some [1, 2, 3, 4]) [5])
    (by intro m hmm; cases hmm; rfl) (by decide)).1 (Or.inr (Or.inl rfl))
  exact h

/-- C2: `mask_frame` does not prepend the mask: the buffer is a
fixed-length slice, so the rotation wraps the last four XORed bytes to
the front where the mask overwrites them.  On the 5-byte buffer
`[1,2,3,4,5]` with the all-zero mask the result is the 5-byte
`[0,0,0,0,1]`: bytes 2,3,4,5 are destroyed instead of the mask being
prepended to all five bytes. -/
theorem C2_mask_frame_truncates :
    mask_frame [0, 0, 0, 0] [1, 2, 3, 4, 5] = some [0, 0, 0, 0, 1] ∧
    (mask_frame [0, 0, 0, 0] [1, 2, 3, 4, 5]).map List.length = some 5 :=
  ⟨rfl, rfl⟩

/-- C3: `mask_frame` panics exactly on buffers shorter than 4 bytes;
hence a Client-role `send` panics on every frame whose serialization is
shorter than 4 bytes, in particular on `Frame::close(None)`, whose
serialization is 2 bytes — so `close()` on a Client connection panics. -/
theorem C3_short_buffer_panics :
    (∀ mask data : List Nat, mask_frame mask data = none ↔ data.length < 4) ∧
    (∀ mask : List Nat, ∀ f : Frame, f.to_bytes.length < 4 →
      WebSocket.send true mask f = none) ∧
    (∀ mask : List Nat, WebSocket.send true mask (Frame.close none) = none) ∧
    (Frame.close none).to_bytes.length = 2 := by
  refine ⟨?_, ?_, ?_, rfl⟩
  · intro mask data
    constructor
    · intro h
      by_contra hc
      simp [mask_frame, Nat.le_of_not_lt hc] at h
    · intro h
      simp [mask_frame, Nat.not_le.mpr h]
  · intro mask f h
    simp [WebSocket.send, mask_frame, Nat.not_le.mpr h]
  · intro mask
    rfl

/-- Witness for C3 at the close frame and a concrete mask. -/
theorem C3_short_buffer_panics_witness :
    (Frame.close none).to_bytes.length < 4 ∧
    WebSocket.send true [7, 7, 7, 7] (Frame.close none) = none :=
  ⟨by decide,
   C3_short_buffer_panics.2.1 [7, 7, 7, 7] (Frame.close none) (by decide)⟩

/-- C4: `close` sends `Frame::close(None)` — a Close frame with empty
payload — and then loops over inbound results: a received Close frame
ends the loop with success, any other received frame is discarded and
the loop continues, a `ConnectionClosed` error ends the loop with
success, and any other error is returned immediately.  The loop is
quantified over an arbitrary prefix of discarded non-Close frames. -/
theorem C4_close_sequence (pre : List (Except RError Frame))
    (hpre : ∀ r ∈ pre, ∃ f, r = Except.ok f ∧ f.is_close = false) :
    (Frame.close none).payload = [] ∧
    (Frame.close none).opcode = OpCode.Close ∧
    (∀ e inbound, WebSocket.close (.error e) inbound = some (.error e)) ∧
    (∀ f : Frame, f.is_close = true → ∀ rest,
      WebSocket.close (.ok ()) (pre ++ Except.ok f :: rest) = some (.ok ())) ∧
    (∀ rest, WebSocket.close (.ok ())
      (pre ++ Except.error RError.connectionClosed :: rest) = some (.ok ())) ∧
    (∀ e, e ≠ RError.connectionClosed → ∀ rest,
      WebSocket.close (.ok ()) (pre ++ Except.error e :: rest) =
        some (.error e)) := by
  refine ⟨rfl, rfl, fun e inbound => rfl, ?_, ?_, ?_⟩
  · intro f hf rest
    simp [WebSocket.close, closeLoop_skip pre hpre, WebSocket.closeLoop, hf]
  · intro rest
    simp [WebSocket.close, closeLoop_skip pre hpre, WebSocket.closeLoop]
  · intro e he rest
    cases e with
    | io =>
      simp [WebSocket.close, closeLoop_skip pre hpre, WebSocket.closeLoop]
    | protocol msg =>
      simp [WebSocket.close, closeLoop_skip pre hpre, WebSocket.closeLoop]
    | connectionClosed => exact absurd rfl he

/-- Witness for C4: a discarded Ping frame followed by the peer Close
frame ends the loop with success. -/
theorem C4_close_sequence_witness :
    WebSocket.close (.ok ()) [Except.ok (Frame.new OpCode.Ping []),
      Except.ok (Frame.close none)] = some (.ok ()) := by
  have h := (C4_close_sequence [Except.ok (Frame.new OpCode.Ping [])]
    (by intro r hr; simp at hr; exact ⟨Frame.new OpCode.Ping [], hr, rfl⟩)).2.2.2.1
    (Frame.close none) rfl []
  simpa using h

/-- C5: no operation constructs `ConnectionClosed`: `read_from` and
`receive` never return it (end of stream surfaces as the I/O error from
`read_exact`), so when the peer closes the transport without sending a
Close frame, the receive step of `close` yields an I/O error, which the
loop returns as a failure rather than success. -/
theorem C5_connection_closed_unreachable :
    (∀ s, errIsConnClosed (Frame.read_from s) = false) ∧
    (∀ c s, errIsConnClosed (WebSocket.receive c s) = false) ∧
    (∀ c, WebSocket.receive c [] = .error RError.io) ∧
    WebSocket.closeLoop [.error RError.io] = some (.error RError.io) :=
  ⟨read_from_no_connClosed, receive_no_connClosed, fun _ => rfl, rfl⟩

/-- C6: the role checks of `receive` are inverted relative to the claim
and to their own messages: a Server-role connection rejects a frame that
IS masked with the message "Client frames must be masked" and accepts an
unmasked one, while a Client-role connection rejects an unmasked frame
with "Server frames must not be masked" and accepts a masked one. -/
theorem C6_receive_role_check_inverted :
    Frame.read_from [0x81, 0x81, 0, 0, 0, 0, 0x61] =
      .ok (Frame.mk true false false false .Text (some [0, 0, 0, 0]) [0x61], []) ∧
    (Frame.mk true false false false OpCode.Text
      (some [0, 0, 0, 0]) ([0x61] : List Nat)).is_masked = true ∧
    WebSocket.receive false [0x81, 0x81, 0, 0, 0, 0, 0x61] =
      .error (.protocol "Client frames must be masked") ∧
    WebSocket.receive false [0x81, 1, 0x61] =
      .ok (Frame.mk true false false false .Text none [0x61], []) ∧
    WebSocket.receive true [0x81, 1, 0x61] =
      .error (.protocol "Server frames must not be masked") ∧
    WebSocket.receive true [0x81, 0x81, 0, 0, 0, 0, 0x61] =
      .ok (Frame.mk true false false false .Text (some [0, 0, 0, 0]) [0x61], []) :=
  ⟨rfl, rfl, rfl, rfl, rfl, rfl⟩

/-- C7: the encoder always picks the smallest length tier that can
represent the payload length (the second byte's low 7 bits hold the
length itself below 126, the marker 126 with a 2-byte extension below
65536, and the marker 127 with an 8-byte extension otherwise — the
total length of the encoding shows which extension was emitted), while
the decoder accepts a length delivered in a larger tier than necessary:
a 126-tier or 127-tier encoding of a length of at most 125 decodes to
the same frame the 7-bit tier would give. -/
theorem C7_length_tiers (f : Frame)
    (hm : ∀ m, f.mask = some m → m.length = 4)
    (hlen : f.payload.length < 2 ^ 64) :
    (f.to_bytes.getD 1 0 &&& 0x7F =
      (if f.payload.length < 126 then f.payload.length
       else if f.payload.length < 65536 then 126 else 127)) ∧
    (f.to_bytes.length =
      2 + (if f.payload.length < 126 then 0
           else if f.payload.length < 65536 then 2 else 8) +
        (if f.mask.isSome then 4 else 0) + f.payload.length) ∧
    (∀ p : List Nat, p.length ≤ 125 →
      Frame.read_from ((0x81 : Nat) :: 126 :: 0 :: p.length :: p) =
        .ok (Frame.new OpCode.Text p, []) ∧
      Frame.read_from ((0x81 : Nat) :: 127 :: (u64_be p.length ++ p)) =
        .ok (Frame.new OpCode.Text p, [])) := by
  obtain ⟨fin, rsv1, rsv2, rsv3, op, mask, p⟩ := f
  refine ⟨?_, ?_, ?_⟩
  · by_cases h1 : p.length < 126
    · have hmod : p.length % 256 = p.length := Nat.mod_eq_of_lt (by omega)
      cases mask with
      | none =>
        have hb := (andBits_spec p.length (by omega)).2
        simp [Frame.to_bytes, if_pos h1, hmod, hb]
      | some m =>
        have hb := (maskBit_spec p.length (by omega)).2.1
        simp [Frame.to_bytes, if_pos h1, hmod, hb]
    · by_cases h2 : p.length < 65536
      · cases mask with
        | none =>
          have e1 : ((126 : Nat) &&& 127) = 126 := rfl
          simp [Frame.to_bytes, if_neg h1, if_pos h2, e1]
        | some m =>
          have e3 : ((254 : Nat) &&& 127) = 126 := rfl
          simp [Frame.to_bytes, if_neg h1, if_pos h2, e3]
      · cases mask with
        | none =>
          have e1 : ((127 : Nat) &&& 127) = 127 := rfl
          simp [Frame.to_bytes, if_neg h1, if_neg h2, e1]
        | some m =>
          have e3 : ((255 : Nat) &&& 127) = 127 := rfl
          simp [Frame.to_bytes, if_neg h1, if_neg h2, e3]
  · have hml : (match mask with | some m => m | none => ([] : List Nat)).length =
        if mask.isSome then 4 else 0 := by
      cases mask with
      | none => rfl
      | some m => simpa using hm m rfl
    by_cases h1 : p.length < 126
    · simp [Frame.to_bytes, if_pos h1, hml, u16_be, u64_be]
      omega
    · by_cases h2 : p.length < 65536
      · simp [Frame.to_bytes, if_neg h1, if_pos h2, hml, u16_be, u64_be]
        omega
      · simp [Frame.to_bytes, if_neg h1, if_neg h2, hml, u16_be, u64_be]
        omega
  · intro p hp
    have e5 : (((129 : Nat) &&& 128) != 0) = true := rfl
    have e6 : (((129 : Nat) &&& 64) != 0) = false := rfl
    have e7 : (((129 : Nat) &&& 32) != 0) = false := rfl
    have e8 : (((129 : Nat) &&& 16) != 0) = false := rfl
    have e9 : ((129 : Nat) &&& 15) = 1 := rfl
    have f1 : ((126 : Nat) &&& 127) = 126 := rfl
    have f2 : (((126 : Nat) &&& 128) != 0) = false := rfl
    have f3 : ((127 : Nat) &&& 127) = 127 := rfl
    have f4 : (((127 : Nat) &&& 128) != 0) = false := rfl
    have hrall := readExact_all p
    constructor
    · have hbv : be_val [0, p.length] = p.length := by simp [be_val]
      have hrl : readLen 126 (0 :: p.length :: p) = .ok (p.length, p) := by
        rw [readLen_ext2, hbv]
      simp [Frame.read_from, readExact_cons2, e5, e6, e7, e8, e9, f1, f2,
        OpCode.tryFrom, hrl, readMask_none, hrall, Frame.new]
    · have hbe : be_val (u64_be p.length) = p.length := be_val_u64 _ (by omega)
      have hrl : readLen 127 (u64_be p.length ++ p) = .ok (p.length, p) := by
        rw [readLen_u64, hbe]
      simp [Frame.read_from, readExact_cons2, e5, e6, e7, e8, e9, f3, f4,
        OpCode.tryFrom, hrl, readMask_none, hrall, Frame.new]

/-- Witness for C7 at a concrete frame and a concrete non-minimal
encoding. -/
theorem C7_length_tiers_witness :
    ((Frame.new OpCode.Text [1, 2, 3]).to_bytes.getD 1 0 &&& 0x7F = 3) ∧
    Frame.read_from [0x81, 126, 0, 1, 0x61] =
      .ok (Frame.new OpCode.Text [0x61], []) := by
  have h := C7_length_tiers (Frame.new OpCode.Text [1, 2, 3])
    (by intro m hmm; cases hmm) (by decide)
  refine ⟨by simpa using h.1, ?_⟩
  have h2 := (h.2.2 [0x61] (by decide)).1
  simpa using h2

set_option maxRecDepth 100000 in
/-- C8: the accept value is the Base64 encoding of the SHA-1 digest of
the key bytes followed by the GUID bytes — a pure function of the key —
and on the RFC reference key "dGhlIHNhbXBsZSBub25jZQ==" it produces
"s3pPLMBiTxaQ9kYGzzhZRbK+xOo=". -/
theorem C8_accept_value :
    (∀ key : List Nat, generate_accept_value key =
      base64Encode (sha1 (key ++ WEBSOCKET_GUID))) ∧
    generate_accept_value (strBytes "dGhlIHNhbXBsZSBub25jZQ==") =
      strBytes "s3pPLMBiTxaQ9kYGzzhZRbK+xOo=" := by
  constructor
  · intro key
    simp [generate_accept_value, hasherUpdate]
  · rfl

/-- C9: `OpCode::try_from` accepts exactly the wire values 0, 1, 2, 8,
9, 10, mapping them to Continuation, Text, Binary, Close, Ping, Pong,
and rejects every other 4-bit value with a protocol error; a frame whose
low opcode nibble is rejected makes `read_from` fail with that error. -/
theorem C9_opcode_validation :
    (OpCode.tryFrom 0 = .ok OpCode.Continuation) ∧
    (OpCode.tryFrom 1 = .ok OpCode.Text) ∧
    (OpCode.tryFrom 2 = .ok OpCode.Binary) ∧
    (OpCode.tryFrom 8 = .ok OpCode.Close) ∧
    (OpCode.tryFrom 9 = .ok OpCode.Ping) ∧
    (OpCode.tryFrom 10 = .ok OpCode.Pong) ∧
    (∀ v < 16, v ∉ ([0, 1, 2, 8, 9, 10] : List Nat) →
      OpCode.tryFrom v = .error (.protocol ("Invalid OpCode: " ++ toString v))) ∧
    (∀ b1 b2 : Nat, ∀ rest : List Nat, ∀ e : RError,
      OpCode.tryFrom (b1 &&& 0x0F) = .error e →
      Frame.read_from (b1 :: b2 :: rest) = .error e) := by
  refine ⟨rfl, rfl, rfl, rfl, rfl, rfl, by decide, ?_⟩
  intro b1 b2 rest e htf
  unfold Frame.read_from
  rw [readExact_cons2]
  dsimp only [List.getD, List.get?, Option.getD]
  rw [htf]

/-- Witness for C9 at the invalid wire value 3. -/
theorem C9_opcode_validation_witness :
    OpCode.tryFrom 3 = .error (.protocol "Invalid OpCode: 3") ∧
    Frame.read_from [3, 0] = .error (.protocol "Invalid OpCode: 3") :=
  ⟨C9_opcode_validation.2.2.2.2.2.2.1 3 (by decide) (by decide),
   C9_opcode_validation.2.2.2.2.2.2.2 3 0 []
     (.protocol "Invalid OpCode: 3") rfl⟩

/-- C10: when the line stream is exhausted before a bare CRLF line was
seen, the header-reading loop shared by `server_handshake` and
`client_handshake` never terminates: at end of input `read_line` reads
zero bytes without error, leaving the line empty, and the empty line
never equals "\r\n" — so for every fuel bound the loop is still
running. -/
theorem C10_header_loop_no_termination (fuel : Nat) (lines : List String)
    (hs : List (String × String)) (h : ∀ l ∈ lines, l ≠ "\r\n") :
    readHeaders fuel lines hs = none := by
  induction fuel generalizing lines hs with
  | zero => rfl
  | succ n ih =>
    cases lines with
    | nil =>
      simp only [readHeaders, readLine]
      rw [if_neg (by decide)]
      exact ih [] _ (by intro l hl; cases hl)
    | cons a t =>
      simp only [readHeaders, readLine]
      rw [if_neg (by exact h a (by simp))]
      exact ih t _ (fun l hl => h l (by simp [hl]))

/-- Witness for C10 on a concrete truncated handshake. -/
theorem C10_header_loop_no_termination_witness :
    readHeaders 5 ["GET / HTTP/1.1\r\n", "Host: example\r\n"] [] = none :=
  C10_header_loop_no_termination 5 _ _
    (by intro l hl; simp at hl; rcases hl with rfl | rfl <;> decide)

end RustySocket
